import Mathlib

/-!
Verification development for the `render` Go package (mariusor/render): a
server-side HTML template rendering layer.  The definitions below are a
shallow embedding of the package's source: the template-set compiler
(`compileTemplatesFromDir`), the layout/partial callback resolver
(`layoutFuncs`), and the render coordinator (`Render.HTML`, `Render.render`,
`HTMLEngine.render`).  The underlying template expression language is treated
as an external collaborator (per the spec's scope): template bodies are an
abstract node list and the engine's parser is a parameter `parse`.
Machine-level concerns (the buffer pool's identity, the filesystem handle)
are modelled by their observable behaviour: files are presented to the walk
as the ordered list of entries the walk would visit, and the pooled buffer by
the produced string.
-/

/-- Content-type header value for HTML data (source constant `ContentHTML`). -/
def ContentHTML : String := "text/html"

/-- The `Content-Type` header name (source constant `ContentType`). -/
def ContentType : String := "Content-Type"

/-- Default character encoding (source constant `defaultCharset`). -/
def defaultCharset : String := "UTF-8"

/-- Left/right action delimiters for the template engine (source `Delims`).
They are forwarded verbatim to the external engine, so they carry no further
semantics in this embedding. -/
structure Delims where
  left : String
  right : String
deriving DecidableEq

/-- A function map, as passed to the template engine.  Only the bookkeeping of
these maps (merging, appending to the configured list) is relevant to the
claims, so the mapped values are an arbitrary type `V`. -/
abbrev FuncMap (V : Type) := List (String × V)

/-- One node of a parsed template body.  `text`/`dot` stand for the external
engine's literal output and data interpolation; `yield`, `current` and `part`
are calls to the three layout callbacks the package registers
(`{{yield}}`, `{{current}}`, `{{partial "name"}}`). -/
inductive Node where
  | text (s : String)
  | dot
  | yield
  | current
  | part (pname : String)
deriving DecidableEq

/-- A parsed template body. -/
abbrev Tmpl := List Node

/-- The named template set held by `html/template`.  An entry `(n, none)`
is a template that was created with `templates.New(n)` but never successfully
parsed (html/template's `New` inserts into the shared namespace immediately,
before `Parse` runs); `(n, some b)` is a parsed template.  `Lookup` returns a
non-nil template for both kinds of entry. -/
abbrev TmplSet := List (String × Option Tmpl)

/-- `template.Lookup`: the entry with the given name, or `none` when no such
template is associated with the set. -/
def lookupTmpl (ts : TmplSet) (name : String) : Option (Option Tmpl) :=
  (ts.find? (fun p => p.1 = name)).map (fun p => p.2)

/-- `templates.New(name)`: emplace an empty template under `name`, emptying
any existing entry of that name (html/template's `new` resets an existing
associated template to an empty one and stores the fresh handle). -/
def newTmpl (ts : TmplSet) (name : String) : TmplSet :=
  if ts.any (fun p => p.1 = name) then
    ts.map (fun p => if p.1 = name then (name, none) else p)
  else
    ts ++ [(name, none)]

/-- A successful `tmpl.Parse` on the template named `name`: the parsed body is
installed under that name. -/
def setTmpl (ts : TmplSet) (name : String) (body : Tmpl) : TmplSet :=
  if ts.any (fun p => p.1 = name) then
    ts.map (fun p => if p.1 = name then (name, some body) else p)
  else
    ts ++ [(name, some body)]

/-- The two `Options` flags that the layout/partial resolver reads. -/
structure ROpts where
  requirePartials : Bool
  renderPartialsWithoutSuffix : Bool
deriving DecidableEq

/-- The function map built by `layoutFuncs`: the three callbacks the package
registers for a layout execution.  Each one returns pre-escaped markup or an
execution error, exactly as the Go closures return `(template.HTML, error)`. -/
structure LayoutFuncMap where
  yieldF : Unit → Except String String
  currentF : Unit → Except String String
  partF : String → Except String String

/-- Error the engine reports when asked to execute a name that is not
associated with the set. -/
def errNoTmpl (name : String) : String :=
  "html/template: \"" ++ name ++ "\" is undefined"

/-- Error the engine reports when executing a template that was created with
`New` but never parsed. -/
def errEmptyTmpl (name : String) : String :=
  "template: \"" ++ name ++ "\" is an incomplete or empty template"

/-- Error returned when the execution fuel is exhausted.  Go's recursion here
would run unboundedly (the callbacks re-enter the executor); the fuel bound is
the embedding's termination device, and every theorem quantifies over it. -/
def errMaxDepth : String := "render: exceeded maximum template depth"

/-- Modelled from the spec: the built-in helper function map (`helperFuncs`,
defined in helpers.go which is not among the provided sources) supplies stub
implementations of the three callbacks for executions that happen outside a
layout call; per the spec the real callbacks are made available "only to the
layout template's own function scope", so the stubs fail when invoked. -/
def helperStubs : LayoutFuncMap :=
  { yieldF := fun _ => Except.error "yield called with no layout defined"
  , currentF := fun _ => Except.error "current called with no layout defined"
  , partF := fun _ => Except.error "block called with no layout defined" }

/-- The source's `layoutFuncs(templates, name, binding)`: the three callbacks,
closed over the template set, the page name and the bound data.  `exec1` is
the engine's `ExecuteTemplate` re-entry point (it receives the callback
binding in force, the template name to run, and the data); `r.execute` in the
source is exactly that re-entry on the shared set. -/
def layoutFuncs (opts : ROpts) (templates : TmplSet)
    (exec1 : Option String → String → String → Except String String)
    (name : String) (binding : String) : LayoutFuncMap :=
  { yieldF := fun _ => exec1 (some name) name binding
  , currentF := fun _ => Except.ok name
  , partF := fun partialName =>
      let fullPartialName := partialName ++ "-" ++ name
      let fullPartialName :=
        if (lookupTmpl templates fullPartialName).isNone && opts.renderPartialsWithoutSuffix then
          partialName
        else fullPartialName
      if opts.requirePartials || (lookupTmpl templates fullPartialName).isSome then
        exec1 (some name) fullPartialName binding
      else
        Except.ok "" }

/-- Evaluate one node of a template body under the function map in force. -/
def evalNode (fm : LayoutFuncMap) (data : String) : Node → Except String String
  | Node.text s => Except.ok s
  | Node.dot => Except.ok data
  | Node.yield => fm.yieldF ()
  | Node.current => fm.currentF ()
  | Node.part pname => fm.partF pname

/-- Execute a template body: nodes run left to right, output concatenates,
and the first failing node aborts the execution with its error (the partial
buffer contents are discarded by every caller in the source). -/
def runNodes (fm : LayoutFuncMap) (data : String) : List Node → Except String String
  | [] => Except.ok ""
  | n :: rest => do
    let s ← evalNode fm data n
    let r ← runNodes fm data rest
    pure (s ++ r)

/-- `ExecuteTemplate` on the shared set: look the name up and run its body.
`lc` is the callback binding registered on the set's shared function map:
`some page` after `tpl.Funcs(r.layoutFuncs(templates, page, binding))` ran for
this call, `none` when only the compile-time helper stubs are registered.
The registered callbacks re-enter this executor, so the binding propagates to
the nested executions, as Go's shared `common.execFuncs` does. -/
def execTmpl (opts : ROpts) (ts : TmplSet) :
    Nat → Option String → String → String → Except String String
  | 0, _, _, _ => Except.error errMaxDepth
  | fuel + 1, lc, name, data =>
    match lookupTmpl ts name with
    | none => Except.error (errNoTmpl name)
    | some none => Except.error (errEmptyTmpl name)
    | some (some body) =>
      let fm :=
        match lc with
        | none => helperStubs
        | some page =>
          layoutFuncs opts ts (fun lc2 nm d => execTmpl opts ts fuel lc2 nm d) page data
      runNodes fm data body

/-- The partial-name resolution performed by the `partial` callback: the
candidate `"<partialName>-<pageName>"`, replaced by the bare name when that
candidate is absent and the fallback option is enabled. -/
def resolvedPartName (opts : ROpts) (ts : TmplSet) (page partialName : String) : String :=
  let fullPartialName := partialName ++ "-" ++ page
  if (lookupTmpl ts fullPartialName).isNone && opts.renderPartialsWithoutSuffix then
    partialName
  else fullPartialName

/-- The platform path separator.  The embedding fixes the Unix value, so
`rel` paths below are `/`-separated strings. -/
def pathSep : Char := '/'

/-- Scan for `filepath.Ext`: walks the path's characters from the end; `acc`
holds the characters already passed, in original order.  Stops empty at a
path separator, and returns the suffix from the first dot found. -/
def extScan : List Char → List Char → List Char
  | _, [] => []
  | acc, c :: rest =>
    if c = pathSep then []
    else if c = '.' then c :: acc
    else extScan (c :: acc) rest

/-- Go's `filepath.Ext`: the suffix beginning at the final dot in the final
element of the path; empty when there is no such dot. -/
def fExt (p : String) : String := String.mk (extScan [] p.data.reverse)

/-- The extension the walk callback computes for a file: empty unless the
root-relative path contains a dot somewhere, otherwise `filepath.Ext` of it
(source lines: `ext := ""` / `if strings.Contains(rel, ".") { ext =
filepath.Ext(rel) }`). -/
def goExt (rel : String) : String := if rel.data.contains '.' then fExt rel else ""

/-- `rel[0 : len(rel)-len(ext)]`: the template name before separator
normalization.  Character counts stand in for Go's byte counts. -/
def stripExtFrom (rel ext : String) : String :=
  String.mk (rel.data.take (rel.data.length - ext.data.length))

/-- Go's `filepath.ToSlash`: replace the platform separator by a forward
slash (the identity on the Unix platform fixed above). -/
def toSlash (s : String) : String :=
  String.mk (s.data.map (fun c => if c = pathSep then '/' else c))

deriving instance DecidableEq for Except

/-- One entry the directory walk visits, described by what the walk callback
can observe of it: its root-relative path (`filepath.Rel(dir, path)`), whether
the `DirEntry` is nil, whether it is a directory, whether the walk reported an
error for it, and what `fs.ReadFile` would return for it. -/
structure FileEnt where
  rel : String
  infoNil : Bool
  isDir : Bool
  walkErr : Bool
  content : Except String String
deriving DecidableEq

/-- The extension loop in the walk callback (`for _, extension := range
r.opt.Extensions`): on a match, read the file (a read failure aborts with the
error), emplace the template with `New`, and parse (a parse failure breaks
out with the error, leaving the emplaced empty entry behind). -/
def extLoop (parse : String → Except String Tmpl) (ts : TmplSet)
    (ext rel : String) (content : Except String String) :
    List String → TmplSet × Option String
  | [] => (ts, none)
  | extension :: rest =>
    if ext = extension then
      match content with
      | Except.error e => (ts, some e)
      | Except.ok buf =>
        let name := toSlash (stripExtFrom rel ext)
        let ts2 := newTmpl ts name
        match parse buf with
        | Except.error e => (ts2, some e)
        | Except.ok body => extLoop parse (setTmpl ts2 name body) ext rel content rest
    else extLoop parse ts ext rel content rest

/-- `fs.WalkDir` with the source's callback: entries with a nil `DirEntry`,
directories and walk errors are skipped (the callback returns nil); a non-nil
callback result aborts the walk with that error, after the set mutations
already performed. -/
def walkFiles (parse : String → Except String Tmpl) (exts : List String) :
    TmplSet → List FileEnt → TmplSet × Option String
  | ts, [] => (ts, none)
  | ts, f :: rest =>
    if f.infoNil || f.isDir || f.walkErr then walkFiles parse exts ts rest
    else
      match extLoop parse ts (goExt f.rel) f.rel f.content exts with
      | (ts2, none) => walkFiles parse exts ts2 rest
      | (ts2, some e) => (ts2, some e)

/-- The compile pass over the walked tree: starts from the fresh empty set
(`r.templates = template.New(dir)`) and folds the walk callback over the
entries.  Returns the set as mutated so far together with the aborting error,
if any.  The `Delims` and function-map registrations on the fresh set are
absorbed by the abstract `parse` parameter and the callback binding of the
executor. -/
def compileTemplatesFromDir (exts : List String) (parse : String → Except String Tmpl)
    (files : List FileEnt) : TmplSet × Option String :=
  walkFiles parse exts [] files

/-- The concurrency guard selected at construction (source `rwLock`): the
real `sync.RWMutex` or the no-op `emptyLock`. -/
inductive LockKind where
  | rwMutex
  | emptyLock
deriving DecidableEq

/-- Configuration for a `Render` instance (source `Options`).  The
`FileSystem` and `BufferPool` fields are not carried: the filesystem is the
explicit `files` argument of the compile pass and the pooled buffer is
modelled by the produced output.  `renderPartialsWithoutSuffix` is the field
the source spells `RenderPartialsWithoutPrefix`; its own doc comment records
that "Prefix" is a typo for what the option does. -/
structure Options (V : Type) where
  directory : String
  layout : String
  extensions : List String
  funcs : List (FuncMap V)
  delims : Delims
  charset : String
  disableCharset : Bool
  htmlContentType : String
  isDevelopment : Bool
  useMutexLock : Bool
  unEscapeHTML : Bool
  requirePartials : Bool
  disableHTTPErrorRendering : Bool
  renderPartialsWithoutSuffix : Bool
deriving DecidableEq

/-- The Go zero value of `Options`, as obtained by `New()` with no argument. -/
def Options.zero (V : Type) : Options V :=
  { directory := ""
  , layout := ""
  , extensions := []
  , funcs := []
  , delims := { left := "", right := "" }
  , charset := ""
  , disableCharset := false
  , htmlContentType := ""
  , isDevelopment := false
  , useMutexLock := false
  , unEscapeHTML := false
  , requirePartials := false
  , disableHTTPErrorRendering := false
  , renderPartialsWithoutSuffix := false }

/-- The two resolver flags of an `Options` value. -/
def Options.ropts {V : Type} (o : Options V) : ROpts :=
  { requirePartials := o.requirePartials
  , renderPartialsWithoutSuffix := o.renderPartialsWithoutSuffix }

/-- Per-call override for one HTML call (source `HTMLOptions`). -/
structure HTMLOptions (V : Type) where
  layout : String
  funcs : FuncMap V
deriving DecidableEq

/-- The `Render` service state (source `Render`): the selected lock, the held
configuration, the held template set (`none` models the nil pointer before
any compile), and the precomputed charset suffix. -/
structure Render (V : Type) where
  lock : LockKind
  opt : Options V
  templates : Option TmplSet
  compiledCharset : String
deriving DecidableEq

/-- `prepareOptions`: fill in defaults and select the lock, once, at
construction.  The `FileSystem` and `BufferPool` defaults of the source have
no counterpart here (see `Options`). -/
def Render.prepareOptions {V : Type} (r : Render V) : Render V :=
  let opt := r.opt
  let opt := if opt.charset.length = 0 then { opt with charset := defaultCharset } else opt
  let cc := if !opt.disableCharset then "; charset=" ++ opt.charset else r.compiledCharset
  let opt := if opt.directory.length = 0 then { opt with directory := "templates" } else opt
  let opt := if opt.extensions.length = 0 then { opt with extensions := [".tmpl"] } else opt
  let opt :=
    if opt.htmlContentType.length = 0 then { opt with htmlContentType := ContentHTML } else opt
  let lk := if opt.isDevelopment || opt.useMutexLock then LockKind.rwMutex else LockKind.emptyLock
  { r with opt := opt, compiledCharset := cc, lock := lk }

/-- `New`: construct a `Render` from the first supplied `Options` (or the
zero value), then apply `prepareOptions`.  The pre-`prepareOptions` lock
field stands for Go's nil interface value; `prepareOptions` always overwrites
it. -/
def New {V : Type} (options : List (Options V)) : Render V :=
  let o := match options with | [] => Options.zero V | o :: _ => o
  Render.prepareOptions
    { lock := LockKind.emptyLock, opt := o, templates := none, compiledCharset := "" }

/-- `CompileTemplates` / the method shell of `compileTemplatesFromDir`: runs
the compile pass and stores the resulting set in `r.templates` (the source
assigns the fresh set to `r.templates` before walking, so the set — partial
on failure — is held in the state either way). -/
def Render.CompileTemplates {V : Type} (r : Render V) (parse : String → Except String Tmpl)
    (files : List FileEnt) : Render V × Option String :=
  let res := compileTemplatesFromDir r.opt.extensions parse files
  ({ r with templates := some res.1 }, res.2)

/-- `TemplateLookup`: lookup on the held set.  On the nil set (never compiled)
the source would dereference a nil pointer; the claims only exercise the
compiled-state behaviour, modelled as the plain lookup. -/
def Render.TemplateLookup {V : Type} (r : Render V) (t : String) : Option (Option Tmpl) :=
  match r.templates with
  | none => none
  | some ts => lookupTmpl ts t

/-- Go map assignment `m[k] = v` on the association-list model: replace the
existing binding or append a new one. -/
def mapSet {V : Type} (m : FuncMap V) (k : String) (v : V) : FuncMap V :=
  if m.any (fun p => p.1 = k) then
    m.map (fun p => if p.1 = k then (k, v) else p)
  else m ++ [(k, v)]

/-- Fold one function map into another, later keys overriding earlier ones
(`for k, v := range src { dst[k] = v }`). -/
def mergeMap {V : Type} (dst src : FuncMap V) : FuncMap V :=
  src.foldl (fun acc p => mapSet acc p.1 p.2) dst

/-- `prepareHTMLOptions`: the effective call-scoped layout and merged function
map.  Only the first override is consulted; an override layout takes effect
only when its length is positive. -/
def Render.prepareHTMLOptions {V : Type} (r : Render V) (htmlOpt : List (HTMLOptions V)) :
    HTMLOptions V :=
  let layout := r.opt.layout
  let funcs : FuncMap V := r.opt.funcs.foldl (fun acc m => mergeMap acc m) []
  match htmlOpt with
  | [] => { layout := layout, funcs := funcs }
  | o :: _ =>
    let layout := if o.layout.length > 0 then o.layout else layout
    { layout := layout, funcs := mergeMap funcs o.funcs }

/-- The destination writer, described by the two capabilities the source
detects or hits: whether the type assertion to `http.ResponseWriter`
succeeds, and whether writing bytes to it fails. -/
structure Dest where
  isRW : Bool
  failWrite : Bool
deriving DecidableEq

/-- What was written to the destination: headers set, status code sent, body
bytes. -/
structure Output where
  headers : List (String × String)
  status : Option Nat
  body : String
deriving DecidableEq

/-- The untouched destination. -/
def emptyOutput : Output := { headers := [], status := none, body := "" }

/-- `Head` (source): content type and status for a response. -/
structure Head where
  contentType : String
  status : Nat
deriving DecidableEq

/-- `Head.Write`: set the Content-Type header and send the status code. -/
def Head.write (h : Head) (out : Output) : Output :=
  { out with
    headers := out.headers ++ [(ContentType, h.contentType)]
  , status := some h.status }

/-- `http.Error(w, msg, 500)`: plain-text headers, status 500, the raw error
text plus a newline as the body. -/
def httpError (out : Output) (msg : String) : Output :=
  { headers := out.headers ++ [(ContentType, "text/plain; charset=utf-8")]
  , status := some 500
  , body := out.body ++ msg ++ "\n" }

/-- The `HTML` engine value (source type `HTML` in the engine file): head
data, the (possibly layout-substituted) name to execute, the shared template
set, and the callback binding registered on it for this call. -/
structure HTMLEngine where
  head : Head
  name : String
  templates : TmplSet
  lc : Option String

/-- `HTML.Render` (the engine): execute the template into a pooled buffer; on
an execution error return it with nothing written; otherwise write headers to
a header-capable destination and copy the buffer out — the copy's error is
discarded by the source (`_, _ = buf.WriteTo(w)`). -/
def HTMLEngine.render (h : HTMLEngine) (opts : ROpts) (fuel : Nat) (w : Dest)
    (binding : String) : Output × Option String :=
  match execTmpl opts h.templates fuel h.lc h.name binding with
  | Except.error e => (emptyOutput, some e)
  | Except.ok s =>
    let out := if w.isRW then h.head.write emptyOutput else emptyOutput
    (if w.failWrite then out else { out with body := out.body ++ s }, none)

/-- The generic `Render.Render` entry point, applied to an engine's result:
when the engine failed and the destination is header-capable and auto error
rendering is not disabled, write a 500 with the raw error text; always pass
the engine's error through.  The engine wrote nothing when it failed, so the
500 response is written onto the untouched destination. -/
def Render.render {V : Type} (r : Render V) (w : Dest) (eres : Output × Option String) :
    Output × Option String :=
  match eres with
  | (out, some e) =>
    if w.isRW && !r.opt.disableHTTPErrorRendering then (httpError out e, some e)
    else (out, some e)
  | (out, none) => (out, none)

/-- The layout-substitution step of `HTML` (source lines wrapping
`templates.Lookup(name)`): when the requested name is associated with the set
and the effective layout is non-empty, register the callbacks bound to the
requested name and redirect execution to the layout name. -/
def substTarget (ts : TmplSet) (name layout : String) : String × Option String :=
  if (lookupTmpl ts name).isSome && layout.length > 0 then (layout, some name)
  else (name, none)

/-- The tail of `Render.HTML` after the template set is in hand: per-call
function injection (`templates.Funcs(opt.Funcs)`, absorbed by the callback
binding), layout substitution, engine construction, execution and the generic
render step. -/
def Render.htmlFinish {V : Type} (r : Render V) (opt : HTMLOptions V) (w : Dest)
    (status : Nat) (name : String) (binding : String) (fuel : Nat) :
    Render V × Output × Option String :=
  let ts := r.templates.getD []
  let target := substTarget ts name opt.layout
  let head : Head := { contentType := r.opt.htmlContentType ++ r.compiledCharset, status := status }
  let h : HTMLEngine := { head := head, name := target.1, templates := ts, lc := target.2 }
  let fin := r.render w (h.render r.opt.ropts fuel w binding)
  (r, fin.1, fin.2)

/-- `Render.HTML`: resolve the call-scoped options; in development mode
discard the held set; when no set is held, fold the effective function map
into the configured `Funcs` list (mutating the held configuration) and
compile, aborting with a compile error; then finish the call.  Returns the
resulting service state, what was written to the destination, and the
returned error. -/
def Render.HTML {V : Type} (r : Render V) (parse : String → Except String Tmpl)
    (files : List FileEnt) (w : Dest) (status : Nat) (name : String) (binding : String)
    (htmlOpt : List (HTMLOptions V)) (fuel : Nat) : Render V × Output × Option String :=
  let opt := r.prepareHTMLOptions htmlOpt
  let r1 := if r.opt.isDevelopment then { r with templates := none } else r
  match r1.templates with
  | none =>
    let r2 :=
      if opt.funcs.length > 0 then
        { r1 with opt := { r1.opt with funcs := r1.opt.funcs ++ [opt.funcs] } }
      else r1
    let cres := r2.CompileTemplates parse files
    match cres.2 with
    | some e => (cres.1, emptyOutput, some e)
    | none => cres.1.htmlFinish opt w status name binding fuel
  | some _ => r1.htmlFinish opt w status name binding fuel

/-- Spec-side definition for the layout-yield identity (spec P4): execute the
layout `L` directly, with the `yield` callback bound to the supplied
pre-computed result `y`, while `current` and `partial` stay bound to the page
`P` and data `d` as usual.  This is the right-hand side of the claimed
identity `render(P, layout=L) == executeWithYieldBoundTo(L, executeDirect(P))`
and is written from the spec's words, to be compared against the source-side
execution. -/
def execWithYieldBound (opts : ROpts) (ts : TmplSet) (fuel : Nat) (L : String)
    (y : Except String String) (P : String) (d : String) : Except String String :=
  match lookupTmpl ts L with
  | none => Except.error (errNoTmpl L)
  | some none => Except.error (errEmptyTmpl L)
  | some (some body) =>
    let base := layoutFuncs opts ts (fun lc2 nm dd => execTmpl opts ts fuel lc2 nm dd) P d
    runNodes { base with yieldF := fun _ => y } d body

/-- Scan for `claimExtOfPath`: like `extScan` but it does not stop at a path
separator. -/
def claimExtScan : List Char → List Char → List Char
  | _, [] => []
  | acc, c :: rest => if c = '.' then c :: acc else claimExtScan (c :: acc) rest

/-- Spec-side definition for claim C10's wording: "the suffix starting at the
last dot of its root-relative path (empty when the path contains no dot)" —
the scan does not stop at a path separator, unlike `filepath.Ext`. -/
def claimExtOfPath (rel : String) : String :=
  String.mk (claimExtScan [] rel.data.reverse)

/-- A concrete parser for witnesses and counterexamples: the content "BAD"
fails to parse; anything else parses to a single literal node. -/
def parseStub (s : String) : Except String Tmpl :=
  if s = "BAD" then Except.error "template: parse error in BAD" else Except.ok [Node.text s]

/-- A walked entry that the callback treats as a compilable file: real
`DirEntry`, not a directory, no walk error. -/
def isFile (f : FileEnt) : Bool := !f.infoNil && !f.isDir && !f.walkErr

/-- A file entry whose computed extension matches the allow-list: exactly the
entries for which the extension loop fires. -/
def matchesExt (exts : List String) (f : FileEnt) : Bool :=
  isFile f && decide (goExt f.rel ∈ exts)

/-- The template name the compile pass derives for a file entry. -/
def tmplName (f : FileEnt) : String := toSlash (stripExtFrom f.rel (goExt f.rel))

/-- Resolver flags with both policy options off. -/
def roptsPlain : ROpts := { requirePartials := false, renderPartialsWithoutSuffix := false }

/-- Resolver flags with strict partials and suffixless fallback both on. -/
def roptsStrictFallback : ROpts :=
  { requirePartials := true, renderPartialsWithoutSuffix := true }

/-- A set holding only a bare partial `X` (no `X-P`). -/
def tsX : TmplSet := [("X", some [Node.text "hi"])]

/-- A set holding a page and a layout that yields into it, the spec's own
scenario (`home.tmpl` is `Hello {{.}}.`, `layout.tmpl` is `<b>{{yield}}</b>`). -/
def tsHL : TmplSet :=
  [ ("home", some [Node.text "Hello ", Node.dot, Node.text "."])
  , ("layout", some [Node.text "<b>", Node.yield, Node.text "</b>"]) ]

/-- A well-formed template file. -/
def fentA : FileEnt :=
  { rel := "a.tmpl", infoNil := false, isDir := false, walkErr := false
  , content := Except.ok "A" }

/-- A template file whose content fails to parse under `parseStub`. -/
def fentBad : FileEnt :=
  { rel := "b.tmpl", infoNil := false, isDir := false, walkErr := false
  , content := Except.ok "BAD" }

/-- A well-formed page template file. -/
def fentHome : FileEnt :=
  { rel := "home.tmpl", infoNil := false, isDir := false, walkErr := false
  , content := Except.ok "hi" }

/-- A dotless file inside a directory whose name contains a dot. -/
def fentDotDir : FileEnt :=
  { rel := "a.b/c", infoNil := false, isDir := false, walkErr := false
  , content := Except.ok "X" }

/-- A header-capable destination whose writes succeed. -/
def destRW : Dest := { isRW := true, failWrite := false }

/-- A plain destination whose writes succeed. -/
def destPlain : Dest := { isRW := false, failWrite := false }

/-- A destination whose byte writes fail. -/
def destFailing : Dest := { isRW := false, failWrite := true }

/-- A default-configured instance (value type `Nat` for the function maps). -/
def renderNat : Render Nat := New []

/-- A set holding only the suffixed partial `X-P`. -/
def tsXP : TmplSet := [("X-P", some [Node.text "xp"])]

/-- A default-configured instance already holding the page/layout set. -/
def renderNatHL : Render Nat := { New [] with templates := some tsHL }

/-- A file whose extension matches no allow-list entry below. -/
def fentTxt : FileEnt :=
  { rel := "d.txt", infoNil := false, isDir := false, walkErr := false
  , content := Except.ok "D" }

/-- A file with two dots in its final path element. -/
def fentAHtmlTmpl : FileEnt :=
  { rel := "a.html.tmpl", infoNil := false, isDir := false, walkErr := false
  , content := Except.ok "Z" }

/-! ### Theorems -/

theorem htmlFinish_fst {V : Type} (r : Render V) (opt : HTMLOptions V) (w : Dest)
    (status : Nat) (name binding : String) (fuel : Nat) :
    (r.htmlFinish opt w status name binding fuel).1 = r := rfl

theorem html_fst_id {V : Type} (r : Render V) (parse : String → Except String Tmpl)
    (files : List FileEnt) (w : Dest) (status : Nat) (name binding : String)
    (htmlOpt : List (HTMLOptions V)) (fuel : Nat) (ts : TmplSet)
    (hts : r.templates = some ts) (hdev : r.opt.isDevelopment = false) :
    (Render.HTML r parse files w status name binding htmlOpt fuel).1 = r := by
  unfold Render.HTML
  simp only [hdev, Bool.false_eq_true, if_false, hts]
  rfl

theorem html_fst_lock {V : Type} (r : Render V) (parse : String → Except String Tmpl)
    (files : List FileEnt) (w : Dest) (status : Nat) (name binding : String)
    (htmlOpt : List (HTMLOptions V)) (fuel : Nat) :
    (Render.HTML r parse files w status name binding htmlOpt fuel).1.lock = r.lock ∧
    (Render.HTML r parse files w status name binding htmlOpt fuel).1.opt.layout = r.opt.layout := by
  unfold Render.HTML
  cases hdev : r.opt.isDevelopment <;> simp only [Bool.false_eq_true, if_false, if_true] <;>
    [skip; skip]
  · cases hts : r.templates
    · simp only [Render.CompileTemplates]
      split <;> split <;> simp [Render.htmlFinish]
    · simp only []
      exact ⟨rfl, rfl⟩
  · simp only [Render.CompileTemplates]
    split <;> split <;> simp [Render.htmlFinish]

/-- C8: the lock is chosen at construction as the real read/write mutex
whenever development mode or the override flag is set, the no-op guard
exactly when both are unset, and no later operation (an HTML call, a compile
pass) changes it. -/
theorem lock_selection_contract {V : Type} (o : Options V) (r : Render V)
    (parse : String → Except String Tmpl) (files : List FileEnt) (w : Dest)
    (status : Nat) (name binding : String) (htmlOpt : List (HTMLOptions V)) (fuel : Nat) :
    (New [o]).lock
        = (if o.isDevelopment || o.useMutexLock then LockKind.rwMutex else LockKind.emptyLock)
    ∧ (New (V := V) []).lock = LockKind.emptyLock
    ∧ (Render.HTML r parse files w status name binding htmlOpt fuel).1.lock = r.lock
    ∧ (r.CompileTemplates parse files).1.lock = r.lock := by
  refine ⟨?_, rfl,
    (html_fst_lock r parse files w status name binding htmlOpt fuel).1, rfl⟩
  unfold New Render.prepareOptions
  dsimp only
  split_ifs <;> rfl

/-- C9: a per-call layout override takes effect only when non-empty — the
effective layout of a call is the override's layout when its length is
positive and the configured base layout otherwise, so an empty override
string cannot disable a configured layout. -/
theorem layout_override_requires_nonempty {V : Type} (r : Render V) (o : HTMLOptions V)
    (rest : List (HTMLOptions V)) (fm : FuncMap V) :
    (r.prepareHTMLOptions (o :: rest)).layout
        = (if o.layout.length > 0 then o.layout else r.opt.layout)
    ∧ (r.prepareHTMLOptions []).layout = r.opt.layout
    ∧ (r.prepareHTMLOptions ({ layout := "", funcs := fm } :: rest)).layout = r.opt.layout := by
  refine ⟨rfl, rfl, ?_⟩
  simp [Render.prepareHTMLOptions]

/-- C2, counterexample: an HTML call that triggers a compile (here: the first
call ever) with a non-empty per-call function map appends the merged map to
the configured `Funcs` list, so the base configuration is not unchanged. -/
theorem html_mutates_funcs_cex :
    ¬ ((Render.HTML renderNat parseStub [] destPlain 200 "x" "d"
          [{ layout := "", funcs := [("f", 1)] }] 1).1.opt.funcs
        = renderNat.opt.funcs) := by decide

/-- C2, amended: the configured layout is never mutated by an HTML call, and
the whole base configuration (the `Funcs` list included) is unchanged by any
call that does not trigger a compile pass, i.e. whenever a template set is
already held and development mode is off. -/
theorem html_base_config_preserved {V : Type} (r : Render V)
    (parse : String → Except String Tmpl) (files : List FileEnt) (w : Dest)
    (status : Nat) (name binding : String) (htmlOpt : List (HTMLOptions V)) (fuel : Nat) :
    (Render.HTML r parse files w status name binding htmlOpt fuel).1.opt.layout = r.opt.layout
    ∧ (∀ ts, r.templates = some ts → r.opt.isDevelopment = false →
        (Render.HTML r parse files w status name binding htmlOpt fuel).1.opt = r.opt) := by
  refine ⟨(html_fst_lock r parse files w status name binding htmlOpt fuel).2, ?_⟩
  intro ts hts hdev
  exact congrArg Render.opt
    (html_fst_id r parse files w status name binding htmlOpt fuel ts hts hdev)

theorem html_base_config_preserved_witness :
    (Render.HTML renderNatHL parseStub [] destPlain 200 "home" "d" [] 2).1.opt
      = renderNatHL.opt :=
  (html_base_config_preserved renderNatHL parseStub [] destPlain 200 "home" "d" [] 2).2
    tsHL rfl rfl

theorem layoutFuncs_partF (opts : ROpts) (ts : TmplSet)
    (exec1 : Option String → String → String → Except String String) (P d X : String) :
    (layoutFuncs opts ts exec1 P d).partF X
      = (if opts.requirePartials || (lookupTmpl ts (resolvedPartName opts ts P X)).isSome
         then exec1 (some P) (resolvedPartName opts ts P X) d
         else Except.ok "") := rfl

/-- C3, counterexample: with strict mode AND suffixless fallback both on, and
a set holding the bare partial `X` but not `X-P`, the callback executes the
resolved bare name and succeeds — it does not attempt the first candidate
`X-P` (whose execution would surface a not-found error, as the second
conjunct shows). -/
theorem partials_strict_resolved_name_cex :
    (layoutFuncs roptsStrictFallback tsX
        (fun lc nm d => execTmpl roptsStrictFallback tsX 3 lc nm d) "P" "d").partF "X"
      = Except.ok "hi"
    ∧ execTmpl roptsStrictFallback tsX 3 (some "P") "X-P" "d"
      = Except.error (errNoTmpl "X-P") := by decide

/-- C3, amended: partial resolution first tries `X-P`; when that is absent
and the fallback option is on the resolved name becomes the bare `X`
(otherwise it stays `X-P`); a missing resolved name with strict mode off
yields empty output and no error; with strict mode on, the callback executes
the RESOLVED name regardless of existence, which surfaces a not-found
execution error when that name is absent. -/
theorem partials_resolution_order (opts : ROpts) (ts : TmplSet) (fuel : Nat) (P X d : String) :
    ((lookupTmpl ts (X ++ "-" ++ P)).isSome = true →
        resolvedPartName opts ts P X = X ++ "-" ++ P)
    ∧ (lookupTmpl ts (X ++ "-" ++ P) = none → opts.renderPartialsWithoutSuffix = true →
        resolvedPartName opts ts P X = X)
    ∧ (lookupTmpl ts (X ++ "-" ++ P) = none → opts.renderPartialsWithoutSuffix = false →
        resolvedPartName opts ts P X = X ++ "-" ++ P)
    ∧ (opts.requirePartials = false → lookupTmpl ts (resolvedPartName opts ts P X) = none →
        (layoutFuncs opts ts (fun lc nm dd => execTmpl opts ts fuel lc nm dd) P d).partF X
          = Except.ok "")
    ∧ (opts.requirePartials = true →
        (layoutFuncs opts ts (fun lc nm dd => execTmpl opts ts fuel lc nm dd) P d).partF X
          = execTmpl opts ts fuel (some P) (resolvedPartName opts ts P X) d)
    ∧ ((lookupTmpl ts (resolvedPartName opts ts P X)).isSome = true →
        (layoutFuncs opts ts (fun lc nm dd => execTmpl opts ts fuel lc nm dd) P d).partF X
          = execTmpl opts ts fuel (some P) (resolvedPartName opts ts P X) d)
    ∧ (lookupTmpl ts (resolvedPartName opts ts P X) = none →
        execTmpl opts ts (fuel + 1) (some P) (resolvedPartName opts ts P X) d
          = Except.error (errNoTmpl (resolvedPartName opts ts P X))) := by
  refine ⟨?_, ?_, ?_, ?_, ?_, ?_, ?_⟩
  · intro h
    rcases hl : lookupTmpl ts (X ++ "-" ++ P) with _ | v
    · rw [hl] at h; cases h
    · simp [resolvedPartName, hl]
  · intro h hs
    simp [resolvedPartName, h, hs]
  · intro h hs
    simp [resolvedPartName, h, hs]
  · intro hrp hl
    rw [layoutFuncs_partF]
    simp [hrp, hl]
  · intro hrp
    rw [layoutFuncs_partF]
    simp [hrp]
  · intro hl
    rw [layoutFuncs_partF]
    simp [hl]
  · intro hl
    simp [execTmpl, hl]

theorem partials_resolution_order_witness :
    (layoutFuncs roptsPlain tsXP
        (fun lc nm dd => execTmpl roptsPlain tsXP 2 lc nm dd) "P" "d").partF "X"
      = execTmpl roptsPlain tsXP 2 (some "P") (resolvedPartName roptsPlain tsXP "P" "X") "d" :=
  (partials_resolution_order roptsPlain tsXP 2 "P" "X" "d").2.2.2.2.2.1 (by decide)

/-- C6: the layout-yield identity.  When the page is associated with the set
and the effective layout name is non-empty, the HTML path substitutes the
layout with the callbacks bound to the page (first conjunct), and executing
the layout that way equals executing the layout directly with `yield` bound
to the result of executing the page directly (the code's own yield closure)
on the same data (second conjunct). -/
theorem layout_yield_identity (opts : ROpts) (ts : TmplSet) (fuel : Nat) (P L d : String)
    (hL : L.length > 0) (hP : (lookupTmpl ts P).isSome = true) :
    substTarget ts P L = (L, some P)
    ∧ execTmpl opts ts (fuel + 1) (some P) L d
        = execWithYieldBound opts ts fuel L (execTmpl opts ts fuel (some P) P d) P d := by
  constructor
  · simp [substTarget, hP, hL]
  · unfold execWithYieldBound
    rcases hlk : lookupTmpl ts L with _ | b
    · simp [execTmpl, hlk]
    · cases b with
      | none => simp [execTmpl, hlk]
      | some body => simp [execTmpl, hlk]; rfl

theorem layout_yield_identity_witness :
    substTarget tsHL "home" "layout" = ("layout", some "home")
    ∧ execTmpl roptsPlain tsHL 4 (some "home") "layout" "World"
        = execWithYieldBound roptsPlain tsHL 3 "layout"
            (execTmpl roptsPlain tsHL 3 (some "home") "home" "World") "home" "World" :=
  layout_yield_identity roptsPlain tsHL 3 "home" "layout" "World" (by decide) (by decide)

theorem lookupTmpl_isSome_iff (ts : TmplSet) (n : String) :
    (lookupTmpl ts n).isSome = true ↔ n ∈ ts.map Prod.fst := by
  induction ts with
  | nil => simp [lookupTmpl]
  | cons p rest ih =>
    by_cases h : p.1 = n
    · simp [lookupTmpl, List.find?_cons, h]
    · have hd : decide (p.1 = n) = false := decide_eq_false h
      simp only [lookupTmpl, List.find?_cons, hd, List.map_cons, List.mem_cons]
      simp only [lookupTmpl] at ih
      rw [ih]
      constructor
      · exact Or.inr
      · rintro (hn | hn)
        · exact absurd hn.symm h
        · exact hn

theorem keys_put (ts : TmplSet) (m : String) (v : Option Tmpl) :
    ((if ts.any (fun p => p.1 = m) then ts.map (fun p => if p.1 = m then (m, v) else p)
      else ts ++ [(m, v)]).map Prod.fst)
      = (if m ∈ ts.map Prod.fst then ts.map Prod.fst else ts.map Prod.fst ++ [m]) := by
  by_cases h : ts.any (fun p => decide (p.1 = m)) = true
  · have hm : m ∈ ts.map Prod.fst := by
      rcases List.any_eq_true.mp h with ⟨p, hp, hpm⟩
      exact List.mem_map.mpr ⟨p, hp, (of_decide_eq_true hpm)⟩
    rw [if_pos h, if_pos hm, List.map_map]
    refine List.map_congr_left ?_
    intro p _
    by_cases hpm : p.1 = m <;> simp [hpm]
  · have hm : m ∉ ts.map Prod.fst := by
      intro hmem
      rcases List.mem_map.mp hmem with ⟨p, hp, hpm⟩
      exact h (List.any_eq_true.mpr ⟨p, hp, decide_eq_true hpm⟩)
    rw [if_neg h, if_neg hm, List.map_append]
    rfl

theorem keys_newTmpl (ts : TmplSet) (m : String) :
    (newTmpl ts m).map Prod.fst
      = (if m ∈ ts.map Prod.fst then ts.map Prod.fst else ts.map Prod.fst ++ [m]) := by
  unfold newTmpl
  exact keys_put ts m none

theorem keys_setTmpl (ts : TmplSet) (m : String) (body : Tmpl) :
    (setTmpl ts m body).map Prod.fst
      = (if m ∈ ts.map Prod.fst then ts.map Prod.fst else ts.map Prod.fst ++ [m]) := by
  unfold setTmpl
  exact keys_put ts m (some body)

theorem mem_keys_newTmpl (ts : TmplSet) (m n : String) :
    n ∈ (newTmpl ts m).map Prod.fst ↔ (n ∈ ts.map Prod.fst ∨ n = m) := by
  rw [keys_newTmpl]
  split_ifs with h
  · constructor
    · exact Or.inl
    · rintro (hn | rfl)
      · exact hn
      · exact h
  · simp [List.mem_append]

theorem mem_keys_setTmpl (ts : TmplSet) (m n : String) (body : Tmpl) :
    n ∈ (setTmpl ts m body).map Prod.fst ↔ (n ∈ ts.map Prod.fst ∨ n = m) := by
  rw [keys_setTmpl]
  split_ifs with h
  · constructor
    · exact Or.inl
    · rintro (hn | rfl)
      · exact hn
      · exact h
  · simp [List.mem_append]

theorem nodup_keys_newTmpl (ts : TmplSet) (m : String)
    (h : (ts.map Prod.fst).Nodup) : ((newTmpl ts m).map Prod.fst).Nodup := by
  rw [keys_newTmpl]
  split_ifs with hm
  · exact h
  · refine List.nodup_append.mpr ⟨h, List.nodup_singleton m, ?_⟩
    intro a ha hb
    rw [List.mem_singleton] at hb
    subst hb
    exact hm ha

theorem nodup_keys_setTmpl (ts : TmplSet) (m : String) (body : Tmpl)
    (h : (ts.map Prod.fst).Nodup) : ((setTmpl ts m body).map Prod.fst).Nodup := by
  rw [keys_setTmpl]
  split_ifs with hm
  · exact h
  · refine List.nodup_append.mpr ⟨h, List.nodup_singleton m, ?_⟩
    intro a ha hb
    rw [List.mem_singleton] at hb
    subst hb
    exact hm ha

theorem extLoop_not_mem (parse : String → Except String Tmpl) (ts : TmplSet)
    (ext rel : String) (content : Except String String) (exts : List String)
    (h : ext ∉ exts) :
    extLoop parse ts ext rel content exts = (ts, none) := by
  induction exts with
  | nil => rfl
  | cons x rest ih =>
    rw [List.mem_cons, not_or] at h
    simp [extLoop, h.1, ih h.2]

theorem extLoop_parse_error (parse : String → Except String Tmpl)
    (ext rel c e : String) (hpe : parse c = Except.error e) :
    ∀ (exts : List String), ext ∈ exts → ∀ ts : TmplSet,
      extLoop parse ts ext rel (Except.ok c) exts
        = (newTmpl ts (toSlash (stripExtFrom rel ext)), some e) := by
  intro exts
  induction exts with
  | nil => intro h; cases h
  | cons x rest ih =>
    intro hmem ts
    by_cases hx : ext = x
    · simp [extLoop, hx, hpe]
    · have hr : ext ∈ rest := by
        rcases List.mem_cons.mp hmem with h | h
        · exact absurd h hx
        · exact h
      simp [extLoop, hx, ih hr ts]

theorem extLoop_ok_keys (parse : String → Except String Tmpl) (ext rel : String)
    (content : Except String String) :
    ∀ (exts : List String) (ts ts' : TmplSet),
      extLoop parse ts ext rel content exts = (ts', none) →
      ∀ n, n ∈ ts'.map Prod.fst ↔
        (n ∈ ts.map Prod.fst ∨ (ext ∈ exts ∧ n = toSlash (stripExtFrom rel ext))) := by
  intro exts
  induction exts with
  | nil =>
    intro ts ts' h n
    simp only [extLoop, Prod.mk.injEq] at h
    rw [← h.1]
    simp
  | cons x rest ih =>
    intro ts ts' h n
    by_cases hx : ext = x
    · simp only [extLoop] at h
      rw [if_pos hx] at h
      cases hcon : content with
      | error ce => rw [hcon] at h; simp at h
      | ok buf =>
        rw [hcon] at h
        rw [hcon] at ih
        dsimp only at h
        cases hp : parse buf with
        | error pe => rw [hp] at h; simp at h
        | ok body =>
          rw [hp] at h
          dsimp only at h
          have hmain := ih (setTmpl (newTmpl ts (toSlash (stripExtFrom rel ext)))
            (toSlash (stripExtFrom rel ext)) body) ts' h n
          rw [hmain, mem_keys_setTmpl, mem_keys_newTmpl]
          have hmem : ext ∈ x :: rest := by
            rw [hx]; exact List.mem_cons_self x rest
          have hsub : ext ∈ rest → ext ∈ x :: rest := List.mem_cons_of_mem x
          constructor
          · rintro (((hn | hn) | hn) | ⟨_, hn⟩)
            · exact Or.inl hn
            · exact Or.inr ⟨hmem, hn⟩
            · exact Or.inr ⟨hmem, hn⟩
            · exact Or.inr ⟨hmem, hn⟩
          · rintro (hn | ⟨_, hn⟩)
            · exact Or.inl (Or.inl (Or.inl hn))
            · exact Or.inl (Or.inl (Or.inr hn))
    · simp only [extLoop] at h
      rw [if_neg hx] at h
      rw [ih ts ts' h n]
      constructor
      · rintro (hn | ⟨hmem, hn⟩)
        · exact Or.inl hn
        · exact Or.inr ⟨List.mem_cons_of_mem x hmem, hn⟩
      · rintro (hn | ⟨hmem, hn⟩)
        · exact Or.inl hn
        · rcases List.mem_cons.mp hmem with hh | hh
          · exact absurd hh hx
          · exact Or.inr ⟨hh, hn⟩

theorem extLoop_nodup (parse : String → Except String Tmpl) (ext rel : String)
    (content : Except String String) :
    ∀ (exts : List String) (ts ts' : TmplSet) (oe : Option String),
      extLoop parse ts ext rel content exts = (ts', oe) →
      (ts.map Prod.fst).Nodup → (ts'.map Prod.fst).Nodup := by
  intro exts
  induction exts with
  | nil =>
    intro ts ts' oe h hn
    simp only [extLoop, Prod.mk.injEq] at h
    rw [← h.1]
    exact hn
  | cons x rest ih =>
    intro ts ts' oe h hn
    by_cases hx : ext = x
    · simp only [extLoop] at h
      rw [if_pos hx] at h
      cases hcon : content with
      | error ce =>
        rw [hcon] at h
        dsimp only at h
        rw [Prod.mk.injEq] at h
        rw [← h.1]
        exact hn
      | ok buf =>
        rw [hcon] at h
        rw [hcon] at ih
        dsimp only at h
        cases hp : parse buf with
        | error pe =>
          rw [hp] at h
          dsimp only at h
          rw [Prod.mk.injEq] at h
          rw [← h.1]
          exact nodup_keys_newTmpl _ _ hn
        | ok body =>
          rw [hp] at h
          dsimp only at h
          exact ih _ ts' oe h
            (nodup_keys_setTmpl _ _ _ (nodup_keys_newTmpl _ _ hn))
    · simp only [extLoop] at h
      rw [if_neg hx] at h
      exact ih ts ts' oe h hn

theorem isFile_false_iff (f : FileEnt) :
    isFile f = false ↔ (f.infoNil || f.isDir || f.walkErr) = true := by
  cases h1 : f.infoNil <;> cases h2 : f.isDir <;> cases h3 : f.walkErr <;>
    simp [isFile, h1, h2, h3]

theorem walkFiles_cons_skipped (parse : String → Except String Tmpl) (exts : List String)
    (ts : TmplSet) (f : FileEnt) (rest : List FileEnt)
    (h : (f.infoNil || f.isDir || f.walkErr) = true) :
    walkFiles parse exts ts (f :: rest) = walkFiles parse exts ts rest := by
  simp [walkFiles, h]

theorem walkFiles_cons_file (parse : String → Except String Tmpl) (exts : List String)
    (ts : TmplSet) (f : FileEnt) (rest : List FileEnt) (hf : isFile f = true) :
    walkFiles parse exts ts (f :: rest)
      = (match extLoop parse ts (goExt f.rel) f.rel f.content exts with
         | (ts2, none) => walkFiles parse exts ts2 rest
         | (ts2, some e) => (ts2, some e)) := by
  have h : (f.infoNil || f.isDir || f.walkErr) = false := by
    cases h1 : f.infoNil <;> cases h2 : f.isDir <;> cases h3 : f.walkErr <;>
      simp_all [isFile]
  simp [walkFiles, h]

theorem walkFiles_cons_nonmatching (parse : String → Except String Tmpl) (exts : List String)
    (ts : TmplSet) (f : FileEnt) (rest : List FileEnt) (h : matchesExt exts f = false) :
    walkFiles parse exts ts (f :: rest) = walkFiles parse exts ts rest := by
  by_cases hf : isFile f = true
  · have hni : goExt f.rel ∉ exts := by
      intro hmem
      have : matchesExt exts f = true := by simp [matchesExt, hf, hmem]
      rw [this] at h
      cases h
    rw [walkFiles_cons_file parse exts ts f rest hf,
      extLoop_not_mem parse ts (goExt f.rel) f.rel f.content exts hni]
  · rw [walkFiles_cons_skipped]
    rw [← isFile_false_iff]
    exact eq_false_of_ne_true hf

theorem walkFiles_append_ok (parse : String → Except String Tmpl) (exts : List String) :
    ∀ (A B : List FileEnt) (ts t1 : TmplSet),
      walkFiles parse exts ts A = (t1, none) →
      walkFiles parse exts ts (A ++ B) = walkFiles parse exts t1 B := by
  intro A
  induction A with
  | nil =>
    intro B ts t1 h
    simp only [walkFiles, Prod.mk.injEq] at h
    rw [← h.1]
    rfl
  | cons f rest ih =>
    intro B ts t1 h
    by_cases hskip : (f.infoNil || f.isDir || f.walkErr) = true
    · rw [walkFiles_cons_skipped _ _ _ _ _ hskip] at h
      rw [List.cons_append, walkFiles_cons_skipped _ _ _ _ _ hskip]
      exact ih B ts t1 h
    · have hf : isFile f = true := by
        rcases h1 : isFile f with _ | _
        · exact absurd ((isFile_false_iff f).mp h1) hskip
        · rfl
      rw [walkFiles_cons_file _ _ _ _ _ hf] at h
      rw [List.cons_append, walkFiles_cons_file _ _ _ _ _ hf]
      rcases hl : extLoop parse ts (goExt f.rel) f.rel f.content exts with ⟨ts2, oe⟩
      rw [hl] at h
      cases oe with
      | none => exact ih B ts2 t1 h
      | some e => simp at h

theorem walkFiles_append_err (parse : String → Except String Tmpl) (exts : List String) :
    ∀ (A B : List FileEnt) (ts t1 : TmplSet) (e : String),
      walkFiles parse exts ts A = (t1, some e) →
      walkFiles parse exts ts (A ++ B) = (t1, some e) := by
  intro A
  induction A with
  | nil =>
    intro B ts t1 e h
    simp only [walkFiles, Prod.mk.injEq] at h
    exact absurd h.2 (by simp)
  | cons f rest ih =>
    intro B ts t1 e h
    by_cases hskip : (f.infoNil || f.isDir || f.walkErr) = true
    · rw [walkFiles_cons_skipped _ _ _ _ _ hskip] at h
      rw [List.cons_append, walkFiles_cons_skipped _ _ _ _ _ hskip]
      exact ih B ts t1 e h
    · have hf : isFile f = true := by
        rcases h1 : isFile f with _ | _
        · exact absurd ((isFile_false_iff f).mp h1) hskip
        · rfl
      rw [walkFiles_cons_file _ _ _ _ _ hf] at h
      rw [List.cons_append, walkFiles_cons_file _ _ _ _ _ hf]
      rcases hl : extLoop parse ts (goExt f.rel) f.rel f.content exts with ⟨ts2, oe⟩
      rw [hl] at h
      cases oe with
      | none => exact ih B ts2 t1 e h
      | some e2 => exact h

theorem walkFiles_ok_keys (parse : String → Except String Tmpl) (exts : List String) :
    ∀ (files : List FileEnt) (ts ts' : TmplSet),
      walkFiles parse exts ts files = (ts', none) →
      ∀ n, n ∈ ts'.map Prod.fst ↔
        (n ∈ ts.map Prod.fst
          ∨ ∃ f ∈ files, matchesExt exts f = true ∧ n = tmplName f) := by
  intro files
  induction files with
  | nil =>
    intro ts ts' h n
    simp only [walkFiles, Prod.mk.injEq] at h
    rw [← h.1]
    simp
  | cons f rest ih =>
    intro ts ts' h n
    by_cases hm : matchesExt exts f = true
    · have hf : isFile f = true := by
        have := hm
        simp only [matchesExt, Bool.and_eq_true] at this
        exact this.1
      have hgm : goExt f.rel ∈ exts := by
        have := hm
        simp only [matchesExt, Bool.and_eq_true, decide_eq_true_eq] at this
        exact this.2
      rw [walkFiles_cons_file _ _ _ _ _ hf] at h
      rcases hl : extLoop parse ts (goExt f.rel) f.rel f.content exts with ⟨ts2, oe⟩
      rw [hl] at h
      cases oe with
      | some e => simp at h
      | none =>
        have hk := extLoop_ok_keys parse (goExt f.rel) f.rel f.content exts ts ts2 hl
        rw [ih ts2 ts' h n, hk n]
        have hiff : ∀ g ∈ rest, matchesExt exts g = true ∧ n = tmplName g →
            (∃ p ∈ f :: rest, matchesExt exts p = true ∧ n = tmplName p) :=
          fun g hg hgn => ⟨g, List.mem_cons_of_mem f hg, hgn⟩
        constructor
        · rintro ((hn | ⟨_, hn⟩) | ⟨g, hg, hgn⟩)
          · exact Or.inl hn
          · exact Or.inr ⟨f, List.mem_cons_self f rest, hm, hn⟩
          · exact Or.inr (hiff g hg hgn)
        · rintro (hn | ⟨g, hg, hgn⟩)
          · exact Or.inl (Or.inl hn)
          · rcases List.mem_cons.mp hg with rfl | hgr
            · exact Or.inl (Or.inr ⟨hgm, hgn.2⟩)
            · exact Or.inr ⟨g, hgr, hgn⟩
    · have hmf : matchesExt exts f = false := eq_false_of_ne_true hm
      rw [walkFiles_cons_nonmatching _ _ _ _ _ hmf] at h
      rw [ih ts ts' h n]
      constructor
      · rintro (hn | ⟨g, hg, hgn⟩)
        · exact Or.inl hn
        · exact Or.inr ⟨g, List.mem_cons_of_mem f hg, hgn⟩
      · rintro (hn | ⟨g, hg, hgn⟩)
        · exact Or.inl hn
        · rcases List.mem_cons.mp hg with rfl | hgr
          · rw [hgn.1] at hmf
            cases hmf
          · exact Or.inr ⟨g, hgr, hgn⟩

theorem walkFiles_nodup (parse : String → Except String Tmpl) (exts : List String) :
    ∀ (files : List FileEnt) (ts ts' : TmplSet) (oe : Option String),
      walkFiles parse exts ts files = (ts', oe) →
      (ts.map Prod.fst).Nodup → (ts'.map Prod.fst).Nodup := by
  intro files
  induction files with
  | nil =>
    intro ts ts' oe h hn
    simp only [walkFiles, Prod.mk.injEq] at h
    rw [← h.1]
    exact hn
  | cons f rest ih =>
    intro ts ts' oe h hn
    by_cases hskip : (f.infoNil || f.isDir || f.walkErr) = true
    · rw [walkFiles_cons_skipped _ _ _ _ _ hskip] at h
      exact ih ts ts' oe h hn
    · have hf : isFile f = true := by
        rcases h1 : isFile f with _ | _
        · exact absurd ((isFile_false_iff f).mp h1) hskip
        · rfl
      rw [walkFiles_cons_file _ _ _ _ _ hf] at h
      rcases hl : extLoop parse ts (goExt f.rel) f.rel f.content exts with ⟨ts2, oe2⟩
      rw [hl] at h
      have hn2 := extLoop_nodup parse (goExt f.rel) f.rel f.content exts ts ts2 oe2 hl hn
      cases oe2 with
      | none => exact ih ts2 ts' oe h hn2
      | some e =>
        rw [Prod.mk.injEq] at h
        rw [← h.1]
        exact hn2

/-- C7: template naming.  On a successful compile pass, every file with an
allow-listed extension yields exactly one entry named by its root-relative
path with that extension stripped and separators normalized (counted once in
the set's name list); every entry of the set comes from such a file; and a
file whose extension matches no allow-list entry contributes nothing at all
to the pass — removing it changes neither the resulting set nor the error. -/
theorem compile_naming (exts : List String) (parse : String → Except String Tmpl)
    (files : List FileEnt) (ts : TmplSet)
    (h : compileTemplatesFromDir exts parse files = (ts, none)) :
    (∀ f ∈ files, matchesExt exts f = true →
        List.count (tmplName f) (ts.map Prod.fst) = 1)
    ∧ (∀ n ∈ ts.map Prod.fst, ∃ f ∈ files, matchesExt exts f = true ∧ n = tmplName f)
    ∧ (∀ (A B : List FileEnt) (g : FileEnt), matchesExt exts g = false →
        compileTemplatesFromDir exts parse (A ++ g :: B)
          = compileTemplatesFromDir exts parse (A ++ B)) := by
  have hw : walkFiles parse exts [] files = (ts, none) := h
  have hkeys := walkFiles_ok_keys parse exts files [] ts hw
  have hnodup := walkFiles_nodup parse exts files [] ts none hw (by simp)
  refine ⟨?_, ?_, ?_⟩
  · intro f hf hm
    apply List.count_eq_one_of_mem hnodup
    rw [hkeys (tmplName f)]
    exact Or.inr ⟨f, hf, hm, rfl⟩
  · intro n hn
    rcases (hkeys n).mp hn with hn2 | hn2
    · simp at hn2
    · exact hn2
  · intro A B g hg
    unfold compileTemplatesFromDir
    rcases hA : walkFiles parse exts [] A with ⟨tA, oe⟩
    cases oe with
    | none =>
      rw [walkFiles_append_ok parse exts A (g :: B) [] tA hA,
        walkFiles_append_ok parse exts A B [] tA hA,
        walkFiles_cons_nonmatching parse exts tA g B hg]
    | some e =>
      rw [walkFiles_append_err parse exts A (g :: B) [] tA e hA,
        walkFiles_append_err parse exts A B [] tA e hA]

theorem compile_naming_witness :
    List.count (tmplName fentA)
      (([("a", some [Node.text "A"])] : TmplSet).map Prod.fst) = 1 :=
  (compile_naming [".tmpl"] parseStub [fentA, fentTxt] [("a", some [Node.text "A"])]
    (by decide)).1 fentA (by decide) (by decide)

/-- C1, counterexample: a compile pass over a good file `a.tmpl` followed by
a syntactically bad file `b.tmpl` returns a non-nil error — but the template
`a`, parsed before the failure, CAN be looked up afterwards: the partially
built set replaced the previous one and is exposed through `TemplateLookup`. -/
theorem compile_failure_lookup_cex :
    ((renderNat.CompileTemplates parseStub [fentA, fentBad]).2).isSome = true
    ∧ (((renderNat.CompileTemplates parseStub [fentA, fentBad]).1).TemplateLookup
        "a").isSome = true := by decide

/-- C1, amended: when a compile pass walks a list of files that all compile
followed by one matching file whose content fails to parse, `CompileTemplates`
returns that parse error — but the pass is not atomic: every name that the
successful prefix made lookupable is still lookupable through
`TemplateLookup` on the resulting state, until a later pass replaces the set. -/
theorem compile_failure_keeps_earlier {V : Type} (r : Render V)
    (parse : String → Except String Tmpl) (files : List FileEnt) (f : FileEnt)
    (c e : String) (ts0 : TmplSet)
    (hok : compileTemplatesFromDir r.opt.extensions parse files = (ts0, none))
    (hfile : isFile f = true) (hext : goExt f.rel ∈ r.opt.extensions)
    (hc : f.content = Except.ok c) (hpe : parse c = Except.error e) :
    (r.CompileTemplates parse (files ++ [f])).2 = some e
    ∧ ∀ n, (lookupTmpl ts0 n).isSome = true →
        ((r.CompileTemplates parse (files ++ [f])).1.TemplateLookup n).isSome = true := by
  have hwalk : compileTemplatesFromDir r.opt.extensions parse (files ++ [f])
      = (newTmpl ts0 (toSlash (stripExtFrom f.rel (goExt f.rel))), some e) := by
    unfold compileTemplatesFromDir at hok ⊢
    rw [walkFiles_append_ok parse r.opt.extensions files [f] [] ts0 hok,
      walkFiles_cons_file parse r.opt.extensions ts0 f [] hfile, hc,
      extLoop_parse_error parse (goExt f.rel) f.rel c e hpe r.opt.extensions hext ts0]
  constructor
  · unfold Render.CompileTemplates
    rw [hwalk]
  · intro n hn
    unfold Render.CompileTemplates Render.TemplateLookup
    rw [hwalk]
    simp only []
    rw [lookupTmpl_isSome_iff, mem_keys_newTmpl]
    exact Or.inl ((lookupTmpl_isSome_iff ts0 n).mp hn)

theorem compile_failure_keeps_earlier_witness :
    ((renderNat.CompileTemplates parseStub ([fentA] ++ [fentBad])).1.TemplateLookup
        "a").isSome = true :=
  (compile_failure_keeps_earlier renderNat parseStub [fentA] fentBad "BAD"
      "template: parse error in BAD" [("a", some [Node.text "A"])] (by decide) (by decide)
      (by decide) (by decide) (by decide)).2 "a" (by decide)

theorem extScan_no_dot : ∀ (l acc : List Char), '.' ∉ l → extScan acc l = [] := by
  intro l
  induction l with
  | nil => intro acc _; rfl
  | cons c rest ih =>
    intro acc h
    rw [List.mem_cons, not_or] at h
    by_cases hc : c = pathSep
    · simp [extScan, hc]
    · have hcd : ¬ c = '.' := fun hd => h.1 hd.symm
      simp [extScan, hc, hcd, ih (c :: acc) h.2]

theorem goExt_eq_fExt (s : String) : goExt s = fExt s := by
  unfold goExt
  by_cases h : s.data.contains '.' = true
  · rw [if_pos h]
  · rw [if_neg h]
    have hm : '.' ∉ s.data := fun hmem => h (List.elem_iff.mpr hmem)
    have hr : '.' ∉ s.data.reverse := fun hmem => hm (List.mem_reverse.mp hmem)
    unfold fExt
    rw [extScan_no_dot s.data.reverse [] hr]

theorem extLoop_stable (parse : String → Except String Tmpl)
    (ext rel c : String) (body : Tmpl) (hp : parse c = Except.ok body) :
    ∀ (exts : List String),
      extLoop parse [(toSlash (stripExtFrom rel ext), some body)] ext rel
          (Except.ok c) exts
        = ([(toSlash (stripExtFrom rel ext), some body)], none) := by
  intro exts
  induction exts with
  | nil => rfl
  | cons x rest ih =>
    by_cases hx : ext = x
    · simp only [extLoop]
      rw [if_pos hx, hp]
      dsimp only
      have hnew : newTmpl [(toSlash (stripExtFrom rel ext), some body)]
          (toSlash (stripExtFrom rel ext))
          = [(toSlash (stripExtFrom rel ext), none)] := by
        simp [newTmpl]
      have hset : setTmpl [(toSlash (stripExtFrom rel ext), none)]
          (toSlash (stripExtFrom rel ext)) body
          = [(toSlash (stripExtFrom rel ext), some body)] := by
        simp [setTmpl]
      rw [hnew, hset]
      exact ih
    · simp only [extLoop]
      rw [if_neg hx]
      exact ih

theorem extLoop_first (parse : String → Except String Tmpl)
    (ext rel c : String) (body : Tmpl) (hp : parse c = Except.ok body) :
    ∀ (exts : List String), ext ∈ exts →
      extLoop parse [] ext rel (Except.ok c) exts
        = ([(toSlash (stripExtFrom rel ext), some body)], none) := by
  intro exts
  induction exts with
  | nil => intro h; cases h
  | cons x rest ih =>
    intro hmem
    by_cases hx : ext = x
    · simp only [extLoop]
      rw [if_pos hx, hp]
      dsimp only
      have hnew : newTmpl [] (toSlash (stripExtFrom rel ext))
          = [(toSlash (stripExtFrom rel ext), none)] := by
        simp [newTmpl]
      have hset : setTmpl [(toSlash (stripExtFrom rel ext), none)]
          (toSlash (stripExtFrom rel ext)) body
          = [(toSlash (stripExtFrom rel ext), some body)] := by
        simp [setTmpl]
      rw [hnew, hset]
      exact extLoop_stable parse ext rel c body hp rest
    · have hr : ext ∈ rest := by
        rcases List.mem_cons.mp hmem with h | h
        · exact absurd h hx
        · exact h
      simp only [extLoop]
      rw [if_neg hx]
      exact ih hr

/-- C10, counterexample: for the path `a.b/c` the claim's extension — the
suffix from the last dot of the whole root-relative path — is `.b/c`, which
matches no entry of the allow-list `[""]`, so under the claim the file would
produce no entry; the code's extension is computed by `filepath.Ext` over the
final path element only, yields `""`, matches, and the file IS compiled
(under the full name `a.b/c`, with no error). -/
theorem ext_of_whole_path_cex :
    goExt "a.b/c" = ""
    ∧ claimExtOfPath "a.b/c" = ".b/c"
    ∧ (compileTemplatesFromDir [""] parseStub [fentDotDir]).1.map Prod.fst = ["a.b/c"]
    ∧ (compileTemplatesFromDir [""] parseStub [fentDotDir]).2 = none := by decide

/-- C10, amended: the extension the compile pass uses is `filepath.Ext` of
the root-relative path — the suffix starting at the last dot of the path's
FINAL element, empty when the final element has no dot (first conjunct: the
additional whole-path dot check never changes the result).  Only that suffix
is compared against the allow-list and stripped to name the template: a
single readable, parseable file is compiled — to exactly one entry named by
stripping that suffix — precisely when that suffix is in the allow-list, and
produces nothing (and no error) otherwise. -/
theorem ext_uses_final_element (exts : List String) (parse : String → Except String Tmpl)
    (f : FileEnt) (c : String) (body : Tmpl)
    (hfile : isFile f = true) (hc : f.content = Except.ok c)
    (hp : parse c = Except.ok body) :
    (∀ s : String, goExt s = fExt s)
    ∧ (goExt f.rel ∈ exts →
        compileTemplatesFromDir exts parse [f]
          = ([(toSlash (stripExtFrom f.rel (goExt f.rel)), some body)], none))
    ∧ (goExt f.rel ∉ exts → compileTemplatesFromDir exts parse [f] = ([], none)) := by
  refine ⟨goExt_eq_fExt, ?_, ?_⟩
  · intro hmem
    unfold compileTemplatesFromDir
    rw [walkFiles_cons_file parse exts [] f [] hfile, hc,
      extLoop_first parse (goExt f.rel) f.rel c body hp exts hmem]
    rfl
  · intro hmem
    unfold compileTemplatesFromDir
    rw [walkFiles_cons_file parse exts [] f [] hfile,
      extLoop_not_mem parse [] (goExt f.rel) f.rel f.content exts hmem]
    rfl


theorem ext_uses_final_element_witness :
    compileTemplatesFromDir [".tmpl"] parseStub [fentAHtmlTmpl]
      = ([("a.html", some [Node.text "Z"])], none) :=
  ((ext_uses_final_element [".tmpl"] parseStub fentAHtmlTmpl "Z" [Node.text "Z"]
      (by decide) (by decide) (by decide)).2.1 (by decide)).trans (by decide)

theorem html_eq_finish {V : Type} (r : Render V) (parse : String → Except String Tmpl)
    (files : List FileEnt) (w : Dest) (status : Nat) (name binding : String)
    (htmlOpt : List (HTMLOptions V)) (fuel : Nat) (ts : TmplSet)
    (hts : r.templates = some ts) (hdev : r.opt.isDevelopment = false) :
    Render.HTML r parse files w status name binding htmlOpt fuel
      = r.htmlFinish (r.prepareHTMLOptions htmlOpt) w status name binding fuel := by
  unfold Render.HTML
  simp only [hdev, Bool.false_eq_true, if_false, hts]

theorem render_pass_ok {V : Type} (r : Render V) (w : Dest) (out : Output) :
    r.render w (out, none) = (out, none) := rfl

theorem render_pass_err {V : Type} (r : Render V) (w : Dest) (out : Output) (e : String) :
    r.render w (out, some e)
      = (if w.isRW && !r.opt.disableHTTPErrorRendering then (httpError out e, some e)
         else (out, some e)) := rfl

theorem engine_render_err (h : HTMLEngine) (opts : ROpts) (fuel : Nat) (w : Dest)
    (binding e : String)
    (hex : execTmpl opts h.templates fuel h.lc h.name binding = Except.error e) :
    h.render opts fuel w binding = (emptyOutput, some e) := by
  unfold HTMLEngine.render
  rw [hex]

theorem engine_render_ok (h : HTMLEngine) (opts : ROpts) (fuel : Nat) (w : Dest)
    (binding s : String)
    (hex : execTmpl opts h.templates fuel h.lc h.name binding = Except.ok s) :
    (h.render opts fuel w binding).2 = none
    ∧ (h.render opts fuel w binding).1.body = (if w.failWrite then "" else s) := by
  unfold HTMLEngine.render
  rw [hex]
  dsimp only
  constructor
  · rfl
  · cases hw : w.failWrite <;> cases hrw : w.isRW <;>
      simp [hw, hrw, Head.write, emptyOutput]

theorem html_engine_result {V : Type} (r : Render V) (parse : String → Except String Tmpl)
    (files : List FileEnt) (w : Dest) (status : Nat) (name binding : String)
    (htmlOpt : List (HTMLOptions V)) (fuel : Nat) (ts : TmplSet) (en : String)
    (lc : Option String)
    (hts : r.templates = some ts) (hdev : r.opt.isDevelopment = false)
    (hsub : substTarget ts name (r.prepareHTMLOptions htmlOpt).layout = (en, lc)) :
    Render.HTML r parse files w status name binding htmlOpt fuel
      = (r, r.render w (HTMLEngine.render
          { head := { contentType := r.opt.htmlContentType ++ r.compiledCharset
                    , status := status }
          , name := en, templates := ts, lc := lc } r.opt.ropts fuel w binding)) := by
  rw [html_eq_finish r parse files w status name binding htmlOpt fuel ts hts hdev]
  unfold Render.htmlFinish
  rw [hts]
  simp only [Option.getD_some]
  rw [hsub]

theorem html_compile_branch {V : Type} (rr r1 : Render V)
    (parse : String → Except String Tmpl) (files : List FileEnt) (w : Dest)
    (status : Nat) (name binding : String) (htmlOpt : List (HTMLOptions V)) (fuel : Nat)
    (e : String)
    (hr1 : (if rr.opt.isDevelopment then ({ rr with templates := none } : Render V)
            else rr) = r1)
    (hts : r1.templates = none)
    (hcomp : (compileTemplatesFromDir r1.opt.extensions parse files).2 = some e) :
    (Render.HTML rr parse files w status name binding htmlOpt fuel).2.2 = some e
    ∧ (Render.HTML rr parse files w status name binding htmlOpt fuel).2.1 = emptyOutput := by
  unfold Render.HTML
  rw [hr1]
  simp only [hts]
  by_cases hf : (rr.prepareHTMLOptions htmlOpt).funcs.length > 0
  · rw [if_pos hf]
    unfold Render.CompileTemplates
    dsimp only
    rw [hcomp]
    exact ⟨rfl, rfl⟩
  · rw [if_neg hf]
    unfold Render.CompileTemplates
    dsimp only
    rw [hcomp]
    exact ⟨rfl, rfl⟩

/-- C4, counterexample: a compile error triggered by an HTML call (first call
ever, bad template file, header-capable destination, auto error rendering
enabled) is returned to the caller but nothing — in particular no 500 — is
written to the destination, because the call returns before reaching the
generic render step. -/
theorem compile_error_no_500_cex :
    ((Render.HTML renderNat parseStub [fentBad] destRW 200 "home" "d" [] 2).2.2).isSome
        = true
    ∧ (Render.HTML renderNat parseStub [fentBad] destRW 200 "home" "d" [] 2).2.1
        = emptyOutput := by decide

/-- C4, amended: when auto error rendering is enabled and the destination is
header-capable, every template-execution error of an HTML call is returned
AND written as a 500 whose body is the raw error text (and when disabled, or
the destination is not header-capable, the error is only returned and nothing
is written); compile errors triggered by the call, however, are only
returned — no 500 is written for them. -/
theorem html_auto_error_rendering {V : Type} (r : Render V)
    (parse : String → Except String Tmpl) (files : List FileEnt) (w : Dest)
    (status : Nat) (name binding : String) (htmlOpt : List (HTMLOptions V)) (fuel : Nat) :
    (∀ ts en lc e, r.templates = some ts → r.opt.isDevelopment = false →
        substTarget ts name (r.prepareHTMLOptions htmlOpt).layout = (en, lc) →
        execTmpl r.opt.ropts ts fuel lc en binding = Except.error e →
        (Render.HTML r parse files w status name binding htmlOpt fuel).2.2 = some e
        ∧ (Render.HTML r parse files w status name binding htmlOpt fuel).2.1
            = (if w.isRW && !r.opt.disableHTTPErrorRendering then httpError emptyOutput e
               else emptyOutput))
    ∧ (∀ e, (r.templates = none ∨ r.opt.isDevelopment = true) →
        (compileTemplatesFromDir r.opt.extensions parse files).2 = some e →
        (Render.HTML r parse files w status name binding htmlOpt fuel).2.2 = some e
        ∧ (Render.HTML r parse files w status name binding htmlOpt fuel).2.1
            = emptyOutput) := by
  constructor
  · intro ts en lc e hts hdev hsub hex
    rw [html_engine_result r parse files w status name binding htmlOpt fuel ts en lc
      hts hdev hsub]
    rw [engine_render_err _ _ _ _ _ _ hex]
    rw [render_pass_err]
    by_cases hcond : (w.isRW && !r.opt.disableHTTPErrorRendering) = true
    · rw [if_pos hcond, if_pos hcond]
      exact ⟨rfl, rfl⟩
    · rw [if_neg hcond, if_neg hcond]
      exact ⟨rfl, rfl⟩
  · intro e hcase hcomp
    rcases hcase with hnone | hdev
    · by_cases hd : r.opt.isDevelopment = true
      · exact html_compile_branch r { r with templates := none } parse files w status
          name binding htmlOpt fuel e (by rw [if_pos hd]) rfl hcomp
      · exact html_compile_branch r r parse files w status name binding htmlOpt fuel e
          (by rw [if_neg hd]) hnone hcomp
    · exact html_compile_branch r { r with templates := none } parse files w status
        name binding htmlOpt fuel e (by rw [if_pos hdev]) rfl hcomp

theorem html_auto_error_rendering_witness :
    (Render.HTML renderNat parseStub [fentBad] destRW 200 "home" "d" [] 2).2.2
      = some "template: parse error in BAD" :=
  ((html_auto_error_rendering renderNat parseStub [fentBad] destRW 200 "home" "d"
      [] 2).2 "template: parse error in BAD" (Or.inl (by decide)) (by decide)).1

/-- C5, counterexample: with a destination whose byte writes fail, a
successful render returns a nil error — the failure of copying the rendered
buffer to the destination is discarded (`_, _ = buf.WriteTo(w)`), the body
never arrives, and the caller sees no error. -/
theorem write_error_not_returned_cex :
    (Render.HTML renderNat parseStub [fentHome] destFailing 200 "home" "World" [] 3).2.2
        = none
    ∧ (Render.HTML renderNat parseStub [fentHome] destFailing 200 "home" "World"
        [] 3).2.1.body = "" := by decide

/-- C5, amended: every template-execution error of an HTML call bubbles up to
the caller as the returned error; but an error while copying the rendered
buffer to the destination writer is discarded — a call whose execution
succeeds returns nil regardless of whether the copy failed (in which case
nothing of the body was written). -/
theorem html_error_bubbles_except_copy {V : Type} (r : Render V)
    (parse : String → Except String Tmpl) (files : List FileEnt) (w : Dest)
    (status : Nat) (name binding : String) (htmlOpt : List (HTMLOptions V)) (fuel : Nat) :
    (∀ ts en lc e, r.templates = some ts → r.opt.isDevelopment = false →
        substTarget ts name (r.prepareHTMLOptions htmlOpt).layout = (en, lc) →
        execTmpl r.opt.ropts ts fuel lc en binding = Except.error e →
        (Render.HTML r parse files w status name binding htmlOpt fuel).2.2 = some e)
    ∧ (∀ ts en lc s, r.templates = some ts → r.opt.isDevelopment = false →
        substTarget ts name (r.prepareHTMLOptions htmlOpt).layout = (en, lc) →
        execTmpl r.opt.ropts ts fuel lc en binding = Except.ok s →
        (Render.HTML r parse files w status name binding htmlOpt fuel).2.2 = none
        ∧ (Render.HTML r parse files w status name binding htmlOpt fuel).2.1.body
            = (if w.failWrite then "" else s)) := by
  constructor
  · intro ts en lc e hts hdev hsub hex
    rw [html_engine_result r parse files w status name binding htmlOpt fuel ts en lc
      hts hdev hsub]
    rw [engine_render_err _ _ _ _ _ _ hex]
    rw [render_pass_err]
    by_cases hcond : (w.isRW && !r.opt.disableHTTPErrorRendering) = true
    · rw [if_pos hcond]
    · rw [if_neg hcond]
  · intro ts en lc s hts hdev hsub hex
    rw [html_engine_result r parse files w status name binding htmlOpt fuel ts en lc
      hts hdev hsub]
    have hok := engine_render_ok
      { head := { contentType := r.opt.htmlContentType ++ r.compiledCharset
                , status := status }
      , name := en, templates := ts, lc := lc } r.opt.ropts fuel w binding s hex
    rcases hres : HTMLEngine.render
        { head := { contentType := r.opt.htmlContentType ++ r.compiledCharset
                  , status := status }
        , name := en, templates := ts, lc := lc } r.opt.ropts fuel w binding
      with ⟨out, oe⟩
    rw [hres] at hok
    cases oe with
    | some e2 => cases hok.1
    | none =>
      rw [render_pass_ok]
      exact ⟨rfl, hok.2⟩

theorem html_error_bubbles_except_copy_witness :
    (Render.HTML renderNatHL parseStub [] destFailing 200 "home" "d" [] 2).2.2 = none
    ∧ (Render.HTML renderNatHL parseStub [] destFailing 200 "home" "d" [] 2).2.1.body
        = "" := by
  have h := (html_error_bubbles_except_copy renderNatHL parseStub [] destFailing 200
      "home" "d" [] 2).2 tsHL "home" none "Hello d." (by decide) (by decide) (by decide)
      (by decide)
  exact ⟨h.1, h.2.trans (by decide)⟩
